import Mathlib

/-!
Verification of the kuato session-search engine.

The definitions below are a shallow embedding of `file-based/search.ts`
(and the limit/date lines of `postgres/api.ts`).  JavaScript strings are
modelled as `String` / `List Char`; `Date` values and file modification
times as `Int` (milliseconds since the epoch); JavaScript `undefined` as
`Option.none`.  Truthiness of the option fields is modelled where the
source relies on it (`options.query`, `options.days`, `options.limit`,
`options.filePattern` are falsy when `""`/`0`/absent).
-/

/-- Models JavaScript `String.prototype.toLowerCase` on a string, as the
character list of the string with each character lowercased. -/
def lower (s : String) : List Char :=
  s.data.map Char.toLower

/-- Whitespace class of the JavaScript regex `\s` restricted to the ASCII
whitespace characters (space, tab, line feed, vertical tab, form feed,
carriage return). -/
def isWsChar (c : Char) : Bool :=
  c = ' ' || c = '\t' || c = '\n' || c = '\x0b' || c = '\x0c' || c = '\r'

/-- Step function for `splitWs`: builds (current run, finished runs). -/
def splitWsStep (c : Char) (acc : List Char × List (List Char)) :
    List Char × List (List Char) :=
  if isWsChar c then
    if acc.1.isEmpty then ([], acc.2) else ([], acc.1 :: acc.2)
  else
    (c :: acc.1, acc.2)

/-- Models `s.split(/\s+/).filter(Boolean)`: the maximal runs of
non-whitespace characters of `s`, in order. -/
def splitWs (s : List Char) : List (List Char) :=
  let p := s.foldr splitWsStep ([], [])
  if p.1.isEmpty then p.2 else p.1 :: p.2

/-- Models JavaScript `hay.includes(needle)` (substring containment). -/
def strIncludes (hay needle : List Char) : Bool :=
  match hay with
  | [] => needle.isEmpty
  | c :: t => needle.isPrefixOf (c :: t) || strIncludes t needle

/-- Models `file.endsWith('.jsonl')` from `findSessionFiles`. -/
def endsWithJsonl (name : String) : Bool :=
  ".jsonl".data.isSuffixOf name.data

/-- Structured session record produced by the parser (`ParsedSession` of
`shared/types.ts`, with the fields used by `file-based/search.ts` and the
optional annotation fields of the data model). -/
structure ParsedSession where
  id : String
  startedAt : Int
  endedAt : Int
  gitBranch : Option String := none
  messageCount : Nat := 0
  inputTokens : Nat := 0
  outputTokens : Nat := 0
  toolsUsed : List String := []
  filesFromToolCalls : List String := []
  userMessages : List String := []
  modelsUsed : List String := []
  summary : Option String := none
  category : Option String := none
deriving DecidableEq

/-- Search result: a session together with its relevance score and the
transcript path (`SearchResult` of `shared/types.ts`). -/
structure SearchResult where
  session : ParsedSession
  relevance : Int
  transcriptPath : String
deriving DecidableEq

/-- Convenience projection used by the sort comparator (`b.endedAt`). -/
def SearchResult.endedAt (r : SearchResult) : Int :=
  r.session.endedAt

/-- Convenience projection for the user messages of a result. -/
def SearchResult.userMessages (r : SearchResult) : List String :=
  r.session.userMessages

/-- Search options (`SearchOptions` of `shared/types.ts`): all fields are
optional; `none` models JavaScript `undefined`.  The field `untilDate`
models `options.until` of the source (`until` is reserved in Lean). -/
structure SearchOptions where
  query : Option String := none
  days : Option Int := none
  since : Option Int := none
  untilDate : Option Int := none
  tools : Option (List String) := none
  filePattern : Option String := none
  limit : Option Nat := none
deriving DecidableEq

/-- One candidate file on disk: its name, its modification time
(`stat.mtime`, in milliseconds) and the outcome of `parseSessionFile`
on it (`none` models both a `null` result and a parse exception). -/
structure SessionFile where
  name : String
  mtime : Int
  parsed : Option ParsedSession
deriving DecidableEq

/-- Models lines 50-54 of `findSessionFiles`: the effective lower date
bound.  `options.since` wins when present; otherwise a truthy
(non-zero) `options.days` yields `now - days * 24*60*60*1000`. -/
def effSince (now : Int) (options : SearchOptions) : Option Int :=
  match options.since with
  | some s => some s
  | none =>
    match options.days with
    | some d => if d = 0 then none else some (now - d * 86400000)
    | none => none

/-- Models `findSessionFiles` of `file-based/search.ts`: keep the
`.jsonl` files whose modification time is not before the effective
`since` bound and not after the `until` bound.  The directory listing is
the file list itself; `now` is the evaluation time (`new Date()`). -/
def findSessionFiles (dir : List SessionFile) (now : Int)
    (options : SearchOptions) : List SessionFile :=
  dir.filter fun f =>
    endsWithJsonl f.name &&
    !(match effSince now options with
      | some s => decide (f.mtime < s)
      | none => false) &&
    !(match options.untilDate with
      | some u => decide (f.mtime > u)
      | none => false)

/-- Models `scoreRelevance` of `file-based/search.ts`: an empty query
scores 1; otherwise the query is lowercased and split on whitespace and
the score accumulates 10 per term occurring in a user message, 3 per
term occurring in a tool name, 3 per term occurring in a file path.
(The `matchedOn` bookkeeping of the source does not affect the returned
score and is omitted.) -/
def scoreRelevance (session : ParsedSession) (query : String) : Int :=
  if query = "" then 1
  else
    let queryTerms := splitWs (lower query)
    let score1 := session.userMessages.foldl
      (fun sc msg => queryTerms.foldl
        (fun sc2 term => if strIncludes (lower msg) term then sc2 + 10 else sc2)
        sc) 0
    let score2 := session.toolsUsed.foldl
      (fun sc tool => queryTerms.foldl
        (fun sc2 term => if strIncludes (lower tool) term then sc2 + 3 else sc2)
        sc) score1
    session.filesFromToolCalls.foldl
      (fun sc file => queryTerms.foldl
        (fun sc2 term => if strIncludes (lower file) term then sc2 + 3 else sc2)
        sc) score2

/-- Models `matchesFilters` of `file-based/search.ts`: the tool filter
(active when `options.tools` is a non-empty list) requires some
requested tool to be a case-insensitive substring of some used tool;
the file filter (active when `options.filePattern` is truthy, i.e. a
non-empty string) requires the pattern to be a case-insensitive
substring of some touched file. -/
def matchesFilters (session : ParsedSession) (options : SearchOptions) : Bool :=
  (match options.tools with
   | some tools =>
     if tools.length > 0 then
       tools.any fun tool =>
         session.toolsUsed.any fun t => strIncludes (lower t) (lower tool)
     else true
   | none => true) &&
  (match options.filePattern with
   | some pat =>
     if pat = "" then true
     else session.filesFromToolCalls.any fun f =>
       strIncludes (lower f) (lower pat)
   | none => true)

/-- Truthiness of `options.query`: present and non-empty. -/
def queryTruthy (options : SearchOptions) : Bool :=
  match options.query with
  | some q => q ≠ ""
  | none => false

/-- The query text used when `options.query` is truthy. -/
def queryText (options : SearchOptions) : String :=
  options.query.getD ""

/-- Models line 178-180 of `searchSessions`: the relevance assigned to a
session, `options.query ? scoreRelevance(session, options.query) : 1`. -/
def sessionRelevance (options : SearchOptions) (session : ParsedSession) : Int :=
  if queryTruthy options then scoreRelevance session (queryText options)
  else 1

/-- Models lines 166-193 of `searchSessions` for a single candidate
file: skip unparseable files, sessions with no user messages, sessions
rejected by the filters, and zero-relevance sessions when a query is
present; otherwise produce the search result. -/
def processFile (options : SearchOptions) (f : SessionFile) :
    Option SearchResult :=
  match f.parsed with
  | none => none
  | some session =>
    if session.userMessages.length = 0 then none
    else if !matchesFilters session options then none
    else if queryTruthy options && sessionRelevance options session = 0 then none
    else some { session := session,
                relevance := sessionRelevance options session,
                transcriptPath := f.name }

/-- Results collected by `searchSessions` before sorting: all session
directories are walked, their files date-filtered, each file processed. -/
def collectResults (baseDir : List (List SessionFile)) (now : Int)
    (options : SearchOptions) : List SearchResult :=
  baseDir.flatMap fun dir =>
    (findSessionFiles dir now options).filterMap (processFile options)

/-- The sort comparator of `searchSessions` (lines 196-202) as a
before-or-equal test: `a` may stay before `b` exactly when the
comparator value `cmp(a, b)` is at most 0, i.e. `a` has the larger
relevance, or equal relevance and the later-or-equal end date. -/
def resLe (a b : SearchResult) : Bool :=
  if a.relevance = b.relevance then b.endedAt ≤ a.endedAt
  else b.relevance < a.relevance

/-- Effective limit (line 205, `options.limit || 20`): an absent or zero
limit defaults to 20. -/
def effLimit (options : SearchOptions) : Nat :=
  match options.limit with
  | some n => if n = 0 then 20 else n
  | none => 20

/-- The comparator as a relation, for `List.insertionSort`. -/
def resRel (a b : SearchResult) : Prop :=
  resLe a b = true

instance : DecidableRel resRel := fun x y =>
  inferInstanceAs (Decidable (resLe x y = true))

/-- Models `searchSessions` of `file-based/search.ts`: collect, sort by
the comparator, and truncate to the effective limit.  JavaScript
`Array.prototype.sort` is a stable sort consistent with the comparator;
it is modelled by the stable `List.insertionSort` on the
before-or-equal relation `resRel`. -/
def searchSessions (baseDir : List (List SessionFile)) (now : Int)
    (options : SearchOptions) : List SearchResult :=
  ((collectResults baseDir now options).insertionSort resRel).take
    (effLimit options)

/-- Models line 58 of `postgres/api.ts`,
`Math.min(parseInt(limitStr || '20', 10), 100)`: the requested limit of
the `/sessions` route (absent modelled as `none`) capped at 100. -/
def pgLimit (l : Option Nat) : Nat :=
  min (l.getD 20) 100

/-- Models the tool-filter condition of `postgres/api.ts` lines 79-83:
the requested names (from `tools.split(',').map(t => t.trim())`) are
tested with the jsonb operator `tools_used ?| $list`, which admits a
row iff at least one requested name equals — exactly and
case-sensitively — an element of the stored `tools_used` array. -/
def pgToolFilter (requested toolsUsed : List String) : Bool :=
  requested.any fun t => toolsUsed.any fun u => t == u

/-! Spec-side definitions.  These follow the wording of the specification
and are compared with the source-derived functions above. -/

/-- Number of query terms that occur (as substrings) in a text, per the
specification's "test case-insensitive substring containment". -/
def termMatches (terms : List (List Char)) (text : List Char) : Nat :=
  (terms.filter fun t => decide (t <:+: text)).length

/-- Relevance score as worded by the specification: tokenize the query
by whitespace into lowercase terms and sum fixed weights over substring
matches, 10 per matching term per user message, 3 per matching term per
tool name, 3 per matching term per file path. -/
def specScore (s : ParsedSession) (q : String) : Int :=
  let terms := splitWs (lower q)
  10 * ((s.userMessages.map fun m => termMatches terms (lower m)).sum : Int)
    + 3 * ((s.toolsUsed.map fun t => termMatches terms (lower t)).sum : Int)
    + 3 * ((s.filesFromToolCalls.map fun f => termMatches terms (lower f)).sum : Int)

/-- Lower date bound admission as worded by the specification (inclusive
window). -/
def sinceOk (since : Option Int) (m : Int) : Bool :=
  match since with
  | some s => decide (s ≤ m)
  | none => true

/-- Upper date bound admission as worded by the specification (inclusive
window). -/
def untilOk (u : Option Int) (m : Int) : Bool :=
  match u with
  | some v => decide (m ≤ v)
  | none => true

/-! Helper lemmas. -/

/-- The substring test of the embedding agrees with list infixes. -/
theorem strIncludes_iff (hay needle : List Char) :
    strIncludes hay needle = true ↔ needle <:+: hay := by
  induction hay with
  | nil => simp [strIncludes, List.isEmpty_iff, List.infix_nil]
  | cons c t ih =>
    simp only [strIncludes, Bool.or_eq_true, ih, List.infix_cons_iff,
      List.isPrefixOf_iff_prefix]

theorem strIncludes_eq_decide (hay needle : List Char) :
    strIncludes hay needle = decide (needle <:+: hay) := by
  rw [Bool.eq_iff_iff, strIncludes_iff, decide_eq_true_eq]

/-- Folding a weighted conditional accumulation equals the weight times
the number of matches. -/
theorem foldl_weight {α : Type} (w : Int) (p : α → Bool) (l : List α)
    (acc : Int) :
    l.foldl (fun sc a => if p a then sc + w else sc) acc
      = acc + w * ((l.filter p).length : Int) := by
  induction l generalizing acc with
  | nil => simp
  | cons a t ih =>
    rw [List.foldl_cons, List.filter_cons]
    by_cases h : p a = true
    · rw [if_pos h, if_pos h, ih, List.length_cons]
      push_cast
      ring
    · rw [if_neg h, if_neg h, ih]

/-- Folding the per-term accumulation over a list of texts equals the
weight times the total number of term matches. -/
theorem foldl_nested_weight {α : Type} (w : Int) (terms : List (List Char))
    (g : α → List Char) (l : List α) (acc : Int) :
    l.foldl (fun sc x => terms.foldl
      (fun sc2 term => if strIncludes (g x) term then sc2 + w else sc2) sc) acc
      = acc + w * (((l.map fun x => termMatches terms (g x)).sum : Nat) : Int) := by
  induction l generalizing acc with
  | nil => simp
  | cons a t ih =>
    rw [List.foldl_cons, ih, foldl_weight]
    have hfe : (terms.filter fun term => strIncludes (g a) term)
        = terms.filter fun term => decide (term <:+: g a) :=
      List.filter_congr fun x _ => strIncludes_eq_decide (g a) x
    rw [hfe]
    unfold termMatches
    simp only [List.map_cons, List.sum_cons]
    push_cast
    ring

/-- The source scorer agrees with the specification formula: 1 on the
empty query, otherwise the weighted sum of substring matches. -/
theorem scoreRelevance_eq_specScore (s : ParsedSession) (q : String) :
    scoreRelevance s q = if q = "" then 1 else specScore s q := by
  by_cases h : q = ""
  · simp [scoreRelevance, h]
  · unfold scoreRelevance specScore
    simp only [h, if_false]
    rw [foldl_nested_weight, foldl_nested_weight, foldl_nested_weight]
    ring

/-- The specification score is non-negative. -/
theorem specScore_nonneg (s : ParsedSession) (q : String) :
    0 ≤ specScore s q := by
  unfold specScore
  positivity

/-- The source score is non-negative. -/
theorem scoreRelevance_nonneg (s : ParsedSession) (q : String) :
    0 ≤ scoreRelevance s q := by
  rw [scoreRelevance_eq_specScore]
  split
  · omega
  · exact specScore_nonneg s q

/-- Characterization of a successfully processed file: the result's
session comes from the file, has user messages, passes the filters, and
its relevance is the scorer's value (non-zero under a truthy query) or
the baseline 1 without one. -/
theorem processFile_eq_some {options : SearchOptions} {f : SessionFile}
    {r : SearchResult} (h : processFile options f = some r) :
    f.parsed = some r.session ∧ r.session.userMessages ≠ [] ∧
    matchesFilters r.session options = true ∧ r.transcriptPath = f.name ∧
    ((queryTruthy options = true ∧
        r.relevance = scoreRelevance r.session (queryText options) ∧
        r.relevance ≠ 0) ∨
      (queryTruthy options = false ∧ r.relevance = 1)) := by
  unfold processFile at h
  split at h
  · exact Option.noConfusion h
  next session heq =>
    split at h
    · exact Option.noConfusion h
    next h1 =>
      split at h
      · exact Option.noConfusion h
      next h2 =>
        split at h
        · exact Option.noConfusion h
        next h3 =>
          injection h with h4
          subst h4
          refine ⟨heq, ?_, ?_, rfl, ?_⟩
          · intro he
            exact h1 (by rw [he]; rfl)
          · simpa using h2
          · rw [Bool.and_eq_true, decide_eq_true_eq] at h3
            cases hq : queryTruthy options with
            | true =>
              left
              refine ⟨rfl, by simp [sessionRelevance, hq], ?_⟩
              intro h0
              exact h3 ⟨hq, h0⟩
            | false =>
              right
              exact ⟨rfl, by simp [sessionRelevance, hq]⟩

/-- Membership in the search output comes from a directory, a
date-admitted file and a successful processing of that file. -/
theorem mem_searchSessions {b : List (List SessionFile)} {now : Int}
    {o : SearchOptions} {r : SearchResult} (h : r ∈ searchSessions b now o) :
    ∃ dir ∈ b, ∃ f ∈ findSessionFiles dir now o, processFile o f = some r := by
  unfold searchSessions at h
  have h2 := List.mem_of_mem_take h
  rw [List.mem_insertionSort] at h2
  unfold collectResults at h2
  rw [List.mem_flatMap] at h2
  obtain ⟨dir, hdir, hm⟩ := h2
  rw [List.mem_filterMap] at hm
  obtain ⟨f, hf, hpf⟩ := hm
  exact ⟨dir, hdir, f, hf, hpf⟩

/-- The comparator is total. -/
theorem resLe_total (a b : SearchResult) :
    resLe a b = true ∨ resLe b a = true := by
  unfold resLe
  by_cases h : a.relevance = b.relevance
  · rw [if_pos h, if_pos h.symm]
    simp only [decide_eq_true_eq]
    omega
  · rw [if_neg h, if_neg (Ne.symm h)]
    simp only [decide_eq_true_eq]
    omega

/-- The comparator is transitive. -/
theorem resLe_trans {a b c : SearchResult} (h1 : resLe a b = true)
    (h2 : resLe b c = true) : resLe a c = true := by
  unfold resLe at h1 h2 ⊢
  split at h1 <;> split at h2 <;> split <;>
    simp only [decide_eq_true_eq] at * <;> omega

instance : IsTotal SearchResult resRel :=
  ⟨resLe_total⟩

instance : IsTrans SearchResult resRel :=
  ⟨fun _ _ _ => resLe_trans⟩

/-- Lowercasing keeps whitespace characters fixed. -/
theorem toLower_ws {c : Char} (h : isWsChar c = true) : Char.toLower c = c := by
  have h' : c = ' ' ∨ c = '\t' ∨ c = '\n' ∨ c = '\x0b' ∨ c = '\x0c' ∨ c = '\r' := by
    simpa [isWsChar, Bool.or_eq_true, decide_eq_true_eq, or_assoc] using h
  rcases h' with rfl | rfl | rfl | rfl | rfl | rfl <;> decide

/-- Tokenizing an all-whitespace string yields no terms. -/
theorem splitWs_ws_nil {l : List Char} (h : ∀ c ∈ l, isWsChar c = true) :
    splitWs l = [] := by
  have hfold : l.foldr splitWsStep ([], []) = ([], []) := by
    induction l with
    | nil => rfl
    | cons c t ih =>
      rw [List.foldr_cons, ih fun x hx => h x (List.mem_cons_of_mem c hx)]
      simp [splitWsStep, h c (List.mem_cons_self c t)]
  simp [splitWs, hfold]

/-- A non-empty all-whitespace query scores 0 on every session. -/
theorem scoreRelevance_ws_zero (s : ParsedSession) {q : String}
    (hne : q ≠ "") (hws : ∀ c ∈ q.data, isWsChar c = true) :
    scoreRelevance s q = 0 := by
  have hterms : splitWs (lower q) = [] := by
    apply splitWs_ws_nil
    intro c hc
    rw [lower] at hc
    obtain ⟨d, hd, rfl⟩ := List.mem_map.mp hc
    rw [toLower_ws (hws d hd)]
    exact hws d hd
  rw [scoreRelevance_eq_specScore, if_neg hne]
  unfold specScore
  rw [hterms]
  simp [termMatches]

/-- Length of the output: the collected result count capped by the
effective limit. -/
theorem searchSessions_length (b : List (List SessionFile)) (now : Int)
    (o : SearchOptions) :
    (searchSessions b now o).length
      = min (effLimit o) (collectResults b now o).length := by
  unfold searchSessions
  rw [List.length_take, List.length_insertionSort]

/-- A file fails processing when, for any session it parses to, the
query is truthy and the session's relevance is zero. -/
theorem processFile_eq_none_of_zero {o : SearchOptions} {f : SessionFile}
    (hz : ∀ session : ParsedSession, f.parsed = some session →
      queryTruthy o = true ∧ sessionRelevance o session = 0) :
    processFile o f = none := by
  unfold processFile
  split
  · rfl
  next session heq =>
    split
    · rfl
    split
    · rfl
    simp [Bool.and_eq_true, decide_eq_true_eq, (hz session heq).1,
      (hz session heq).2]

/-! Concrete data used by the witnesses, counterexamples and scenario
conjuncts. -/

/-- Sample session of the specification's email scenario. -/
def emailSession : ParsedSession :=
  { id := "e1", startedAt := 0, endedAt := 5,
    toolsUsed := ["Edit", "Bash"],
    userMessages := ["Let's build an email filter", "Yes, ship it"] }

/-- Sample file parsing to `emailSession`. -/
def emailFile : SessionFile :=
  { name := "e.jsonl", mtime := 0, parsed := some emailSession }

/-! Claim theorems. -/

/-- C1: every `SearchResult` in the list returned by `searchSessions`
has a non-empty `userMessages` sequence; a parsed session whose
`userMessages` is empty is never included in the result list. -/
theorem C1_results_have_user_messages (b : List (List SessionFile))
    (now : Int) (o : SearchOptions) (r : SearchResult)
    (h : r ∈ searchSessions b now o) : r.session.userMessages ≠ [] := by
  obtain ⟨dir, _, f, _, hpf⟩ := mem_searchSessions h
  exact (processFile_eq_some hpf).2.1

/-- Witness for C1 at a concrete corpus and query. -/
theorem C1_witness :
    ({ session := emailSession, relevance := 10, transcriptPath := "e.jsonl" }
        : SearchResult)
      ∈ searchSessions [[emailFile]] 0 { query := some "email" } ∧
    ({ session := emailSession, relevance := 10, transcriptPath := "e.jsonl" }
        : SearchResult).session.userMessages ≠ [] :=
  ⟨by decide,
    C1_results_have_user_messages [[emailFile]] 0 { query := some "email" } _
      (by decide)⟩

/-- C3: with a present, non-empty free-text query every returned record
has relevance strictly greater than 0 (zero-score records are dropped). -/
theorem C3_positive_relevance (b : List (List SessionFile)) (now : Int)
    (o : SearchOptions) (q : String) (hq : o.query = some q) (hne : q ≠ "")
    (r : SearchResult) (h : r ∈ searchSessions b now o) : 0 < r.relevance := by
  obtain ⟨dir, _, f, _, hpf⟩ := mem_searchSessions h
  obtain ⟨-, -, -, -, hrel⟩ := processFile_eq_some hpf
  have htr : queryTruthy o = true := by simp [queryTruthy, hq, hne]
  rcases hrel with ⟨-, hr, hne0⟩ | ⟨hfalse, -⟩
  · have h0 := scoreRelevance_nonneg r.session (queryText o)
    omega
  · rw [htr] at hfalse
    cases hfalse

/-- Witness for C3 at a concrete corpus and query. -/
theorem C3_witness :
    ({ query := some "email" } : SearchOptions).query = some "email" ∧
    ("email" : String) ≠ "" ∧
    0 < ({ session := emailSession, relevance := 10,
           transcriptPath := "e.jsonl" } : SearchResult).relevance :=
  ⟨rfl, by decide,
    C3_positive_relevance [[emailFile]] 0 { query := some "email" } "email"
      rfl (by decide) _ (by decide)⟩

/-- C8: an empty query always scores the fixed positive baseline 1, and
the score is never negative for any record and any query. -/
theorem C8_baseline_and_nonneg :
    (∀ s : ParsedSession, scoreRelevance s "" = 1) ∧
    ∀ (s : ParsedSession) (q : String), 0 ≤ scoreRelevance s q :=
  ⟨fun s => by simp [scoreRelevance], scoreRelevance_nonneg⟩

/-- C9: a non-empty query made only of whitespace tokenizes to no terms,
every record scores 0, and the zero-score exclusion empties the output. -/
theorem C9_whitespace_query_empty (b : List (List SessionFile)) (now : Int)
    (o : SearchOptions) (q : String) (hq : o.query = some q) (hne : q ≠ "")
    (hws : ∀ c ∈ q.data, isWsChar c = true) :
    searchSessions b now o = [] := by
  have htr : queryTruthy o = true := by simp [queryTruthy, hq, hne]
  have hqt : queryText o = q := by simp [queryText, hq]
  have hcoll : collectResults b now o = [] := by
    unfold collectResults
    rw [List.flatMap_eq_nil_iff]
    intro dir _
    rw [List.filterMap_eq_nil_iff]
    intro f _
    apply processFile_eq_none_of_zero
    intro session _
    refine ⟨htr, ?_⟩
    unfold sessionRelevance
    rw [if_pos htr, hqt]
    exact scoreRelevance_ws_zero session hne hws
  unfold searchSessions
  rw [hcoll]
  simp

/-- Witness for C9 at a concrete corpus and a space-only query. -/
theorem C9_witness :
    ({ query := some " " } : SearchOptions).query = some " " ∧
    (" " : String) ≠ "" ∧
    (∀ c ∈ (" " : String).data, isWsChar c = true) ∧
    searchSessions [[emailFile]] 0 { query := some " " } = [] :=
  ⟨rfl, by decide, by decide,
    C9_whitespace_query_empty [[emailFile]] 0 { query := some " " } " "
      rfl (by decide) (by decide)⟩

/-- C10: the scorer depends only on the query and the record's
`userMessages`, `toolsUsed` and `filesFromToolCalls`; sessions agreeing
on those three fields score equally whatever their other fields are. -/
theorem C10_score_field_dependence (q : String) (s1 s2 : ParsedSession)
    (h1 : s1.userMessages = s2.userMessages)
    (h2 : s1.toolsUsed = s2.toolsUsed)
    (h3 : s1.filesFromToolCalls = s2.filesFromToolCalls) :
    scoreRelevance s1 q = scoreRelevance s2 q := by
  unfold scoreRelevance
  rw [h1, h2, h3]

/-- First of a pair of sessions agreeing on the scored fields only. -/
def twinA : ParsedSession :=
  { id := "a", startedAt := 0, endedAt := 1, inputTokens := 5,
    summary := some "about databases", toolsUsed := ["Edit"],
    filesFromToolCalls := ["x.ts"], userMessages := ["hello world"] }

/-- Second of the pair: different id, timestamps, tokens, summary and
category, same scored fields. -/
def twinB : ParsedSession :=
  { id := "b", startedAt := 7, endedAt := 9, outputTokens := 3,
    category := some "misc", toolsUsed := ["Edit"],
    filesFromToolCalls := ["x.ts"], userMessages := ["hello world"] }

/-- Witness for C10: the twins differ in summary, id and timestamps yet
score equally, even on a query that occurs only in one summary. -/
theorem C10_witness :
    twinA.summary ≠ twinB.summary ∧ twinA.endedAt ≠ twinB.endedAt ∧
    twinA.id ≠ twinB.id ∧
    scoreRelevance twinA "databases" = scoreRelevance twinB "databases" :=
  ⟨by decide, by decide, by decide,
    C10_score_field_dependence "databases" twinA twinB rfl rfl rfl⟩

/-- Session used to populate a large corpus. -/
def repSession : ParsedSession :=
  { id := "r", startedAt := 0, endedAt := 0, userMessages := ["hello"] }

/-- File parsing to `repSession`. -/
def repFile : SessionFile :=
  { name := "r.jsonl", mtime := 0, parsed := some repSession }

/-- A corpus of 101 admissible sessions in one directory. -/
def bigCorpus : List (List SessionFile) := [List.replicate 101 repFile]

/-- C2 counterexample: requesting `limit=500` on a 101-session corpus
returns 101 results from `searchSessions` — more than the claimed hard
ceiling of 100. -/
theorem C2_counterexample :
    ({ limit := some 500 } : SearchOptions).limit = some 500 ∧
    100 < (searchSessions bigCorpus 0 { limit := some 500 }).length := by
  refine ⟨rfl, ?_⟩
  rw [searchSessions_length]
  have h1 : findSessionFiles (List.replicate 101 repFile) 0
      { limit := some 500 } = List.replicate 101 repFile := by
    unfold findSessionFiles
    rw [List.filter_replicate, if_pos (by decide)]
  have h2 : collectResults bigCorpus 0 { limit := some 500 }
      = List.replicate 101
          ({ session := repSession, relevance := 1,
             transcriptPath := "r.jsonl" } : SearchResult) := by
    unfold collectResults bigCorpus
    rw [List.flatMap_cons, List.flatMap_nil, List.append_nil, h1,
      List.filterMap_replicate]
    rfl
  rw [h2, List.length_replicate]
  decide

/-- C2 amended: `searchSessions` truncates to exactly the effective
limit (absent or zero limit defaults to 20, with no ceiling of 100 in
the file-based backend), while the postgres route caps the requested
limit at 100 (default 20, no lower clamp). -/
theorem C2_limit_behaviour :
    (∀ (b : List (List SessionFile)) (now : Int) (o : SearchOptions),
      (searchSessions b now o).length ≤ effLimit o) ∧
    (∀ o : SearchOptions, effLimit { o with limit := none } = 20) ∧
    (∀ o : SearchOptions, effLimit { o with limit := some 0 } = 20) ∧
    (∀ l : Option Nat, pgLimit l ≤ 100) ∧
    pgLimit none = 20 ∧ pgLimit (some 500) = 100 := by
  refine ⟨?_, fun o => rfl, fun o => rfl, ?_, rfl, rfl⟩
  · intro b now o
    unfold searchSessions
    exact List.length_take_le _ _
  · intro l
    unfold pgLimit
    exact min_le_right _ _

/-- C4: the scorer tokenizes the lowercased query on whitespace and sums
the fixed weights (10 per term per user message, 3 per term per tool,
3 per term per file); the email scenario scores 10 ≥ 10 and is included,
the database scenario scores 0 and is excluded. -/
theorem C4_scoring :
    (∀ (s : ParsedSession) (q : String),
      scoreRelevance s q = if q = "" then 1 else specScore s q) ∧
    scoreRelevance emailSession "email" = 10 ∧
    10 ≤ scoreRelevance emailSession "email" ∧
    searchSessions [[emailFile]] 0 { query := some "email" }
      = [{ session := emailSession, relevance := 10,
           transcriptPath := "e.jsonl" }] ∧
    scoreRelevance emailSession "database" = 0 ∧
    searchSessions [[emailFile]] 0 { query := some "database" } = [] :=
  ⟨scoreRelevance_eq_specScore, by decide, by decide, by decide, by decide,
    by decide⟩

/-- C5 amended: the output of `searchSessions` is pairwise sorted by
relevance descending, with ties on relevance ordered by `endedAt`
descending.  (Among results equal in both keys the stable sort keeps
discovery order, so the order is not a function of the key pair alone;
see the counterexample.) -/
theorem C5_sorted (b : List (List SessionFile)) (now : Int)
    (o : SearchOptions) :
    (searchSessions b now o).Pairwise fun x y =>
      y.relevance ≤ x.relevance ∧
        (x.relevance = y.relevance → y.endedAt ≤ x.endedAt) := by
  have hs := List.sorted_insertionSort resRel (collectResults b now o)
  have hp : ((collectResults b now o).insertionSort resRel).Pairwise
      fun x y => y.relevance ≤ x.relevance ∧
        (x.relevance = y.relevance → y.endedAt ≤ x.endedAt) := by
    refine List.Pairwise.imp ?_ hs
    intro x y hxy
    unfold resRel resLe at hxy
    by_cases he : x.relevance = y.relevance
    · rw [if_pos he, decide_eq_true_eq] at hxy
      exact ⟨le_of_eq he.symm, fun _ => hxy⟩
    · rw [if_neg he, decide_eq_true_eq] at hxy
      exact ⟨le_of_lt hxy, fun hc => absurd hc he⟩
  exact List.Pairwise.sublist (List.take_sublist _ _) hp

/-- First session of the full-tie pair. -/
def tieA : ParsedSession :=
  { id := "A", startedAt := 0, endedAt := 0, userMessages := ["m"] }

/-- Second session of the full-tie pair: same dates, different id. -/
def tieB : ParsedSession :=
  { id := "B", startedAt := 0, endedAt := 0, userMessages := ["m"] }

/-- File parsing to `tieA`. -/
def tieFileA : SessionFile :=
  { name := "A.jsonl", mtime := 0, parsed := some tieA }

/-- File parsing to `tieB`. -/
def tieFileB : SessionFile :=
  { name := "B.jsonl", mtime := 0, parsed := some tieB }

/-- Result for `tieA` in listing mode. -/
def tieResA : SearchResult :=
  { session := tieA, relevance := 1, transcriptPath := "A.jsonl" }

/-- Result for `tieB` in listing mode. -/
def tieResB : SearchResult :=
  { session := tieB, relevance := 1, transcriptPath := "B.jsonl" }

/-- C5 counterexample: two distinct results with equal relevance and
equal `endedAt` come out in discovery order, so two corpora holding the
same records in different order produce differently ordered outputs —
the output order is not fully determined by (score, endedAt). -/
theorem C5_counterexample :
    searchSessions [[tieFileA, tieFileB]] 0 {} = [tieResA, tieResB] ∧
    searchSessions [[tieFileB, tieFileA]] 0 {} = [tieResB, tieResA] ∧
    tieResA ≠ tieResB ∧ tieResA.relevance = tieResB.relevance ∧
    tieResA.endedAt = tieResB.endedAt := by
  decide

/-- Session ending on day 10 (milliseconds-since-epoch day scale). -/
def day10Session : ParsedSession :=
  { id := "d10", startedAt := 0, endedAt := 10 * 86400000,
    userMessages := ["work ten"] }

/-- Session ending on day 18. -/
def day18Session : ParsedSession :=
  { id := "d18", startedAt := 0, endedAt := 18 * 86400000,
    userMessages := ["work eighteen"] }

/-- File for `day10Session`, modified at its end time. -/
def day10File : SessionFile :=
  { name := "a.jsonl", mtime := 10 * 86400000, parsed := some day10Session }

/-- File for `day18Session`, modified at its end time. -/
def day18File : SessionFile :=
  { name := "b.jsonl", mtime := 18 * 86400000, parsed := some day18Session }

/-- Session whose `endedAt` (7) lies inside the queried window. -/
def lateSession : ParsedSession :=
  { id := "late", startedAt := 0, endedAt := 7, userMessages := ["hi"] }

/-- File for `lateSession` whose modification time (0) lies before the
window. -/
def staleFile : SessionFile :=
  { name := "late.jsonl", mtime := 0, parsed := some lateSession }

/-- Date window used by the C6 counterexample. -/
def windowOpts : SearchOptions := { since := some 5, untilDate := some 10 }

/-- C6 counterexample: a record whose `endedAt` lies inside
`[since, until]` and which passes every other filter is nevertheless
dropped, because the file-based date filter tests the file modification
time, not `endedAt`. -/
theorem C6_counterexample :
    staleFile.parsed = some lateSession ∧
    windowOpts.since = some 5 ∧ windowOpts.untilDate = some 10 ∧
    (5 : Int) ≤ lateSession.endedAt ∧ lateSession.endedAt ≤ 10 ∧
    lateSession.userMessages ≠ [] ∧
    matchesFilters lateSession windowOpts = true ∧
    searchSessions [[staleFile]] 100 windowOpts = [] := by
  decide

/-- C6 amended: the file-based date filter admits a `.jsonl` file iff
its modification time lies in the inclusive window `[since, until]`,
where a truthy `days = N` is translated to `since = now − N·86400000`
at evaluation time and an explicit `since` takes precedence over
`days`; identifying each file's modification time with its record's
`endedAt`, the `days=7`, now = day 20 scenario keeps day 18 and drops
day 10. -/
theorem C6_date_window :
    (∀ (now : Int) (o : SearchOptions) (s : Int),
      effSince now { o with since := some s } = some s) ∧
    (∀ (now : Int) (o : SearchOptions) (d : Int),
      effSince now { o with since := none, days := some d }
        = if d = 0 then none else some (now - d * 86400000)) ∧
    (∀ (dir : List SessionFile) (now : Int) (o : SearchOptions)
        (f : SessionFile),
      f ∈ findSessionFiles dir now o ↔
        f ∈ dir ∧ (endsWithJsonl f.name
          && sinceOk (effSince now o) f.mtime
          && untilOk o.untilDate f.mtime) = true) ∧
    searchSessions [[day10File, day18File]] (20 * 86400000) { days := some 7 }
      = [{ session := day18Session, relevance := 1,
           transcriptPath := "b.jsonl" }] := by
  refine ⟨fun now o s => rfl, fun now o d => rfl, ?_, by decide⟩
  intro dir now o f
  unfold findSessionFiles
  simp only [List.mem_filter]
  have hsince : (!(match effSince now o with
      | some s => decide (f.mtime < s)
      | none => false)) = sinceOk (effSince now o) f.mtime := by
    cases effSince now o with
    | none => rfl
    | some s =>
      show (!decide (f.mtime < s)) = decide (s ≤ f.mtime)
      rw [Bool.eq_iff_iff]
      simp only [Bool.not_eq_true', decide_eq_false_iff_not,
        decide_eq_true_eq]
      omega
  have huntil : (!(match o.untilDate with
      | some u => decide (f.mtime > u)
      | none => false)) = untilOk o.untilDate f.mtime := by
    cases o.untilDate with
    | none => rfl
    | some u =>
      show (!decide (f.mtime > u)) = decide (f.mtime ≤ u)
      rw [Bool.eq_iff_iff]
      simp only [Bool.not_eq_true', decide_eq_false_iff_not,
        decide_eq_true_eq]
      omega
  rw [hsince, huntil]

/-- C7 counterexample: the claim's admission criterion and scenario fail
on the postgres tool filter: the record with tool "Edit" satisfies the
case-insensitive-substring criterion for the request "edit" (and the
file-based filter admits it), yet the postgres `?|` condition rejects
it, because jsonb key matching is exact and case-sensitive. -/
theorem C7_counterexample :
    emailSession.toolsUsed = ["Edit", "Bash"] ∧
    (∃ req ∈ ["edit"], ∃ used ∈ emailSession.toolsUsed,
      lower req <:+: lower used) ∧
    matchesFilters emailSession { tools := some ["edit"] } = true ∧
    pgToolFilter ["edit"] emailSession.toolsUsed = false := by
  decide

/-- C7 amended: the file-based tool filter admits a session iff some
requested tool name is a case-insensitive substring of some entry of
`toolsUsed` (any-of on both sides), and there a session using "Edit" is
admitted by a request of "edit"; the postgres route instead admits a
row iff some requested name exactly equals a stored tool name
(case-sensitively), so there only the exact request "Edit" admits it. -/
theorem C7_tool_filter :
    (∀ (s : ParsedSession) (o : SearchOptions) (t : String)
        (rest : List String),
      matchesFilters s
          { o with tools := some (t :: rest), filePattern := none } = true ↔
        ∃ req ∈ t :: rest, ∃ used ∈ s.toolsUsed,
          lower req <:+: lower used) ∧
    matchesFilters emailSession { tools := some ["edit"] } = true ∧
    (∀ requested toolsUsed : List String,
      pgToolFilter requested toolsUsed = true ↔
        ∃ req ∈ requested, ∃ used ∈ toolsUsed, req = used) ∧
    pgToolFilter ["Edit"] emailSession.toolsUsed = true := by
  refine ⟨?_, by decide, ?_, by decide⟩
  · intro s o t rest
    show ((if (t :: rest).length > 0 then
        (t :: rest).any fun tool =>
          s.toolsUsed.any fun u => strIncludes (lower u) (lower tool)
      else true) && true) = true ↔
      ∃ req ∈ t :: rest, ∃ used ∈ s.toolsUsed, lower req <:+: lower used
    rw [if_pos (show (t :: rest).length > 0 by simp), Bool.and_true]
    simp only [List.any_eq_true, strIncludes_iff]
  · intro requested toolsUsed
    unfold pgToolFilter
    simp only [List.any_eq_true, beq_iff_eq]
